import Mathlib

/-!
Verification of `Mailman/Queue/MaildirRunner.py` (maildir pre-queue runner).

The development shallowly embeds the runner's single-pass loop `_oneloop`:
the address pattern `lre`, the recipient-routing scan over the
`Delivered-To` / `Envelope-To` / `Apparently-To` headers, the sub-queue
dispatch table, and the per-file claim / quarantine state machine.
Filesystem and queue effects are represented by explicit per-file oracles
(`FileEnv`) describing whether each external call succeeds.
-/

namespace Maildir

/-- The nine sub-queue tokens of the address pattern `lre`, in the order in
which they appear in the alternation of the regular expression. -/
def subqTokens : List String :=
  [("admin"), ("bounces"), ("confirm"), ("join"), ("leave"), ("owner"),
   ("request"), ("subscribe"), ("unsubscribe")]

/-- Lower-case every character of a string (ASCII case folding, as performed
by the `re.IGNORECASE` flag on the pattern and by Python lower-casing). -/
def lowerStr (s : String) : String :=
  String.mk (s.data.map Char.toLower)

/-- The terminating character class `[+@]` of the pattern `lre`. -/
def isDelim (c : Char) : Bool :=
  c == '+' || c == '@'

/-- Scan the token alternation of `lre` at the current position: find the
first token of which a case-insensitive copy begins `rest`, returning the
matched characters as written together with the remaining input.  The nine
tokens start with pairwise distinct letters, so at most one alternative can
match at a given position. -/
def findToken : List String → List Char → Option (List Char × List Char)
  | [], _ => none
  | t :: ts, rest =>
      let cap := rest.take t.length
      if cap.map Char.toLower = t.data then some (cap, rest.drop t.length)
      else findToken ts rest

/-- Backtracking engine of the pattern
`^(?P<listname>[^+@]+?)(?:-(?P<subq>admin|...|unsubscribe))?[+@]`
compiled with `re.VERBOSE | re.IGNORECASE`.  `lname` is the (nonempty once
at least one character is consumed) prefix currently tried for the
non-greedy `listname` group; at each position the engine first tries to
close the match with the optional `-subq` group, then with the empty group,
and otherwise extends `listname` by one non-delimiter character. -/
def lreGo : List Char → List Char → Option (List Char × Option (List Char))
  | _, [] => none
  | lname, c :: rest =>
      if lname ≠ [] ∧ c = '-' then
        match findToken subqTokens rest with
        | some (cap, c2 :: _) =>
            if isDelim c2 then some (lname, some cap) else lreGo (lname ++ [c]) rest
        | _ => lreGo (lname ++ [c]) rest
      else if lname ≠ [] ∧ isDelim c then some (lname, none)
      else if isDelim c then none
      else lreGo (lname ++ [c]) rest

/-- Result of `lre.match(to)` followed by `mo.group('listname', 'subq')`:
the list name and, when present, the sub-queue token, both captured exactly
as written in the input (the pattern is case-insensitive but the groups
preserve the original spelling). -/
def lreMatch (s : String) : Option (String × Option String) :=
  match lreGo [] s.data with
  | none => none
  | some (l, sq) => some (String.mk l, sq.map String.mk)

/-- Strip leading and trailing space characters. -/
def trimSpaces (cs : List Char) : List Char :=
  ((cs.dropWhile (· = ' ')).reverse.dropWhile (· = ' ')).reverse

/-- Model of the external library call `email.utils.parseaddr(field)[1]`
(the Python standard library, not part of this repository), restricted to
the simple field shapes exercised here: `parseaddr` parses the *first*
address of the field (everything up to the first comma), takes the part
between angle brackets when a display name is present, and returns the bare
address string, `''` when nothing is there. -/
def parseaddr (field : String) : String :=
  let first := field.data.takeWhile (· ≠ ',')
  let addr :=
    if first.contains '<' then ((first.dropWhile (· ≠ '<')).drop 1).takeWhile (· ≠ '>')
    else first
  String.mk (trimSpaces addr)

/-- A parsed message, reduced to its header list: pairs of header name and
header value, in message order. -/
abbrev Msg := List (String × String)

/-- Model of `msg.get_all(name, [])` of the external message object: all
values of the named header in order; header-name comparison in the `email`
library is case-insensitive. -/
def getAll (msg : Msg) (name : String) : List String :=
  (msg.filter (fun p => lowerStr p.1 == name)).map Prod.snd

/-- The `vals` list of `_oneloop`: all values of `Delivered-To`,
`Envelope-To` and `Apparently-To`, in that header order, preserving
repetition order within a header. -/
def collectVals (msg : Msg) : List String :=
  getAll msg ("delivered-to") ++ getAll msg ("envelope-to") ++ getAll msg ("apparently-to")

/-- The routing loop of `_oneloop` over the collected header values:
extract the bare address with `parseaddr`, skip empty addresses, match
against `lre`, and stop at the first candidate whose `listname` group is a
member of the valid list names; the `for ... else` clause (no `break`)
yields `none`. -/
def routeScan (parse : String → String) (listnames : List String) :
    List String → Option (String × Option String)
  | [] => none
  | field :: rest =>
      let toAddr := parse field
      if toAddr = "" then routeScan parse listnames rest
      else
        match lreMatch toAddr with
        | none => routeScan parse listnames rest
        | some (listname, subq) =>
            if listname ∈ listnames then some (listname, subq)
            else routeScan parse listnames rest

/-- The Recipient Router of `_oneloop`: the routing loop applied to the
collected header values with `parseaddr` as the address extractor. -/
def route (msg : Msg) (listnames : List String) : Option (String × Option String) :=
  routeScan parseaddr listnames (collectVals msg)

/-- Spec-side description of one routing candidate, used to state the
first-match-wins contract: the test applied to a single header value. -/
def candidateOf (parse : String → String) (listnames : List String) (field : String) :
    Option (String × Option String) :=
  let toAddr := parse field
  if toAddr = "" then none
  else
    match lreMatch toAddr with
    | none => none
    | some (listname, subq) =>
        if listname ∈ listnames then some (listname, subq) else none

/-- The three destination switchboards referenced by `_oneloop`
(`mm_cfg.BOUNCEQUEUE_DIR`, `mm_cfg.CMDQUEUE_DIR`, `mm_cfg.INQUEUE_DIR`). -/
inductive QueueId
  | bounceQueue
  | cmdQueue
  | inQueue
deriving DecidableEq

/-- The configured envelope sender `Utils.get_site_email(extra='bounces')`,
kept symbolic. -/
inductive EnvSender
  | siteBounce
deriving DecidableEq

/-- The configured owner pipeline `mm_cfg.OWNER_PIPELINE`, kept symbolic. -/
inductive Pipeline
  | ownerPipeline
deriving DecidableEq

/-- The `msgdata` dictionary built by `_oneloop`: the always-present
`listname` key, the boolean routing flags (a `false` field models an absent
key), and the optional `envsender` and `pipeline` entries set on the owner
path. -/
structure MsgData where
  listname : String
  toconfirm : Bool := false
  tojoin : Bool := false
  toleave : Bool := false
  toowner : Bool := false
  tolist : Bool := false
  torequest : Bool := false
  envsender : Option EnvSender := none
  pipeline : Option Pipeline := none
deriving DecidableEq

/-- The initial `msgdata` dictionary, holding only the listname key. -/
def baseMd (listname : String) : MsgData :=
  { listname := listname }

/-- The `msgdata` update performed on the `owner` path of the dispatch
chain. -/
def ownerMd (listname : String) : MsgData :=
  { baseMd listname with
      toowner := true
      envsender := some EnvSender.siteBounce
      pipeline := some Pipeline.ownerPipeline }

/-- The sub-queue dispatch chain of `_oneloop`, in source order; `none`
models the final `else` branch (`Unknown sub-queue`). -/
def selectDest (listname : String) (subq : Option String) : Option (QueueId × MsgData) :=
  if subq = some ("bounces") ∨ subq = some ("admin") then
    some (.bounceQueue, baseMd listname)
  else if subq = some ("confirm") then
    some (.cmdQueue, { baseMd listname with toconfirm := true })
  else if subq = some ("join") ∨ subq = some ("subscribe") then
    some (.cmdQueue, { baseMd listname with tojoin := true })
  else if subq = some ("leave") ∨ subq = some ("unsubscribe") then
    some (.cmdQueue, { baseMd listname with toleave := true })
  else if subq = some ("owner") then
    some (.inQueue, ownerMd listname)
  else if subq = none then
    some (.inQueue, { baseMd listname with tolist := true })
  else if subq = some ("request") then
    some (.cmdQueue, { baseMd listname with torequest := true })
  else none

/-- Outcome of an `os.rename` call: success, failure with `errno.ENOENT`,
or failure with any other error. -/
inductive RenameResult
  | ok
  | enoent
  | err
deriving DecidableEq

/-- Per-file oracle describing how the external calls made while processing
one file behave: the claim rename, the open-and-parse of the message
(`none` models an I/O or parse exception), the switchboard `enqueue`, the
`os.unlink`, and any rename to the quarantine name `<file>:1,X`. -/
structure FileEnv where
  claim : RenameResult
  load : Option Msg
  enqueueOk : Bool
  unlinkOk : Bool
  xrenameOk : Bool
deriving DecidableEq

/-- One `syslog` call of `MaildirRunner`, by call site. -/
inductive LogEvent
  | initStart
  | initComplete
  | initFailed
  | listDirError
  | couldNotRename (src : String)
  | notForAnyList (xdst : String)
  | unknownSubqueue (subq : String)
  | successDebug (file : String)
  | errorProcessing (file : String)
deriving DecidableEq

/-- Control outcome of processing one file: continue with the next file, or
propagate an exception that aborts the whole pass. -/
inductive Control
  | next
  | abortPass
deriving DecidableEq

/-- Final location of a mail-drop file after this worker's pass processed
it, by resulting file name. -/
inductive FileFate
  | lostToOther
  | unclaimedStay
  | removed
  | quarantinedAt (name : String)
  | inProgressAt (name : String)
deriving DecidableEq

/-- Everything observable about processing one file: its final location,
the `syslog` calls in order, the control outcome, what (if anything) was
enqueued and where, and the in-progress name the claim rename targeted. -/
structure FileResult where
  fate : FileFate
  logs : List LogEvent
  control : Control
  enqueued : Option (QueueId × MsgData)
  claimedAs : Option String
deriving DecidableEq

/-- The body of the per-file `try` block of `_oneloop`, entered after a
successful claim rename: load, route, select the destination, enqueue and
unlink; every exception is caught by the outer handler, which logs the
error and best-effort renames the file to `<file>:1,X` (a failure of that
rename is swallowed by `except OSError: pass`). -/
def afterClaim (env : FileEnv) (listnames : List String) (file : String) : FileResult :=
  let dst := file ++ (":1,P")
  let xdst := file ++ (":1,X")
  match env.load with
  | none =>
      if env.xrenameOk then
        ⟨.quarantinedAt xdst, [.errorProcessing file], .next, none, some dst⟩
      else
        ⟨.inProgressAt dst, [.errorProcessing file], .next, none, some dst⟩
  | some msg =>
      match route msg listnames with
      | none =>
          if env.xrenameOk then
            ⟨.quarantinedAt xdst, [.notForAnyList xdst], .next, none, some dst⟩
          else
            ⟨.inProgressAt dst, [.notForAnyList xdst, .errorProcessing file], .next, none,
              some dst⟩
      | some (listname, subq) =>
          match selectDest listname subq with
          | none =>
              if env.xrenameOk then
                ⟨.quarantinedAt xdst, [.unknownSubqueue (subq.getD (""))], .next, none, some dst⟩
              else
                ⟨.inProgressAt dst, [.unknownSubqueue (subq.getD ("")), .errorProcessing file],
                  .next, none, some dst⟩
          | some (q, md) =>
              if env.enqueueOk then
                if env.unlinkOk then
                  ⟨.removed, [.successDebug file], .next, some (q, md), some dst⟩
                else if env.xrenameOk then
                  ⟨.quarantinedAt xdst, [.errorProcessing file], .next, some (q, md), some dst⟩
                else
                  ⟨.inProgressAt dst, [.errorProcessing file], .next, some (q, md), some dst⟩
              else if env.xrenameOk then
                ⟨.quarantinedAt xdst, [.errorProcessing file], .next, none, some dst⟩
              else
                ⟨.inProgressAt dst, [.errorProcessing file], .next, none, some dst⟩

/-- Processing of one file of the directory listing, starting with the
claim rename `os.rename(srcname, dstname)`: `ENOENT` means another worker
won the race (silently skip), any other rename failure is logged and
re-raised (aborting the pass), and on success the `try` body runs. -/
def processFile (env : FileEnv) (listnames : List String) (file : String) : FileResult :=
  match env.claim with
  | .enoent => ⟨.lostToOther, [], .next, none, none⟩
  | .err => ⟨.unclaimedStay, [.couldNotRename file], .abortPass, none, none⟩
  | .ok => afterClaim env listnames file

/-- Result of `os.listdir(self._dir)`: a listing, `ENOENT`, or another
error. -/
inductive ListDirResult
  | ok (files : List (String × FileEnv))
  | enoent
  | err
deriving DecidableEq

/-- The exceptions `_oneloop` can propagate to its caller. -/
inductive PassError
  | listDirError
  | claimError
deriving DecidableEq

/-- Whether the file loop of `_oneloop` raises before reaching its end: the
first file whose processing aborts stops the scan. -/
def passAborted (listnames : List String) : List (String × FileEnv) → Bool
  | [] => false
  | (file, env) :: rest =>
      match (processFile env listnames file).control with
      | .abortPass => true
      | .next => passAborted listnames rest

/-- The pass driver `_oneloop`: list the maildir `new` directory once
(`ENOENT` returns `0`, any other error re-raises), process every listed file,
and return `len(files)`. -/
def oneloop (ld : ListDirResult) (listnames : List String) : Except PassError Nat :=
  match ld with
  | .enoent => .ok 0
  | .err => .error .listDirError
  | .ok files => if passAborted listnames files then .error .claimError else .ok files.length

/-- State established by `MaildirRunner.__init__`: whether the maildir
`new` and `cur` directories exist afterwards. -/
structure InitState where
  newDirExists : Bool
  curDirExists : Bool
deriving DecidableEq

/-- Oracle for the external calls of `MaildirRunner.__init__`: the base
`Runner.__init__`, the two existence tests and the two `os.makedirs`. -/
structure InitEnv where
  runnerInitOk : Bool
  newExists : Bool
  curExists : Bool
  mkdirNewOk : Bool
  mkdirCurOk : Bool
deriving DecidableEq

/-- Translation of `MaildirRunner.__init__`: any exception is logged and
re-raised (`none` models the re-raise); on success both directories exist,
each having existed before or been created by `os.makedirs`. -/
def initRunner (env : InitEnv) : Option InitState × List LogEvent :=
  if env.runnerInitOk = false then (none, [.initStart, .initFailed])
  else if env.newExists = false ∧ env.mkdirNewOk = false then (none, [.initStart, .initFailed])
  else if env.curExists = false ∧ env.mkdirCurOk = false then (none, [.initStart, .initFailed])
  else (some ⟨true, true⟩, [.initStart, .initComplete])

/-- Spec-side predicate, written from the claim that after a pass every
file is in one of the three states removed, quarantined, or still
unclaimed because another worker claimed it first. -/
def inThreeClaimedStates : FileFate → Bool
  | .removed => true
  | .quarantinedAt _ => true
  | .lostToOther => true
  | _ => false

/-- Concrete message whose only recipient header does not name any list,
used to exercise the no-route path. -/
def msgNoRoute : Msg := [(("delivered-to"), ("nobody@elsewhere.example"))]

/-- Concrete message addressed to the bare list address, routed to the main
inbound queue. -/
def msgTolist : Msg := [(("delivered-to"), ("mylist@host"))]

/-! Helper lemmas shared by the claim theorems. -/

theorem routeScan_eq_findSome (parse : String → String) (listnames : List String) :
    ∀ fields : List String,
      routeScan parse listnames fields = fields.findSome? (candidateOf parse listnames)
  | [] => rfl
  | field :: rest => by
      rw [List.findSome?_cons]
      simp only [routeScan, candidateOf]
      by_cases h : parse field = ""
      · rw [if_pos h, if_pos h, routeScan_eq_findSome parse listnames rest]
      · rw [if_neg h, if_neg h]
        cases hm : lreMatch (parse field) with
        | none =>
            simp only [hm]
            exact routeScan_eq_findSome parse listnames rest
        | some p =>
            obtain ⟨l, sq⟩ := p
            simp only [hm]
            by_cases hl : l ∈ listnames
            · rw [if_pos hl, if_pos hl]
            · rw [if_neg hl, if_neg hl]
              exact routeScan_eq_findSome parse listnames rest

theorem routeScan_mem (parse : String → String) (listnames : List String) :
    ∀ (fields : List String) (l : String) (sq : Option String),
      routeScan parse listnames fields = some (l, sq) → l ∈ listnames
  | [], _, _, h => by simp [routeScan] at h
  | field :: rest, l, sq, h => by
      by_cases he : parse field = ""
      · simp only [routeScan, if_pos he] at h
        exact routeScan_mem parse listnames rest l sq h
      · simp only [routeScan, if_neg he] at h
        cases hm : lreMatch (parse field) with
        | none =>
            simp only [hm] at h
            exact routeScan_mem parse listnames rest l sq h
        | some p =>
            obtain ⟨l1, sq1⟩ := p
            simp only [hm] at h
            by_cases hl : l1 ∈ listnames
            · rw [if_pos hl] at h
              injection h with h1
              injection h1 with h2 h3
              subst h2
              exact hl
            · rw [if_neg hl] at h
              exact routeScan_mem parse listnames rest l sq h

theorem route_mem (msg : Msg) (listnames : List String) (l : String) (sq : Option String)
    (h : route msg listnames = some (l, sq)) : l ∈ listnames :=
  routeScan_mem parseaddr listnames (collectVals msg) l sq h

theorem selectDest_some_of_token (ln s : String) (h : s ∈ subqTokens) :
    selectDest ln (some s) ≠ none := by
  simp only [subqTokens, List.mem_cons, List.not_mem_nil, or_false] at h
  rcases h with rfl | rfl | rfl | rfl | rfl | rfl | rfl | rfl | rfl <;>
    simp [selectDest]

theorem selectDest_none_of_not_token (ln s : String) (h : s ∉ subqTokens) :
    selectDest ln (some s) = none := by
  simp only [subqTokens, List.mem_cons, List.not_mem_nil, or_false, not_or] at h
  obtain ⟨h1, h2, h3, h4, h5, h6, h7, h8, h9⟩ := h
  simp [selectDest, h1, h2, h3, h4, h5, h6, h7, h8, h9]

theorem selectDest_none_iff (ln s : String) :
    selectDest ln (some s) = none ↔ s ∉ subqTokens := by
  constructor
  · intro h hmem
    exact selectDest_some_of_token ln s hmem h
  · exact selectDest_none_of_not_token ln s

theorem findToken_lower_mem :
    ∀ (ts : List String) (rest cap r2 : List Char),
      findToken ts rest = some (cap, r2) → ∃ t ∈ ts, cap.map Char.toLower = t.data := by
  intro ts
  induction ts with
  | nil => intro rest cap r2 h; simp [findToken] at h
  | cons t ts ih =>
      intro rest cap r2 h
      simp only [findToken] at h
      split at h
      · injection h with h1
        injection h1 with h2 h3
        subst h2
        exact ⟨t, List.mem_cons_self t ts, by assumption⟩
      · obtain ⟨t1, ht1, hlow⟩ := ih rest cap r2 h
        exact ⟨t1, List.mem_cons_of_mem t ht1, hlow⟩

theorem lreGo_subq_lower_mem :
    ∀ (rest lname l cap : List Char),
      lreGo lname rest = some (l, some cap) → ∃ t ∈ subqTokens, cap.map Char.toLower = t.data := by
  intro rest
  induction rest with
  | nil => intro lname l cap h; simp [lreGo] at h
  | cons c rest ih =>
      intro lname l cap h
      simp only [lreGo] at h
      split at h
      · split at h
        · rename_i cap1 c2 tail hf
          split at h
          · injection h with h1
            injection h1 with h2 h3
            injection h3 with h4
            subst h4
            exact findToken_lower_mem subqTokens rest cap1 (c2 :: tail) hf
          · exact ih (lname ++ [c]) l cap h
        · exact ih (lname ++ [c]) l cap h
      · split at h
        · injection h with h1
          injection h1 with h2 h3
          exact absurd h3 (by simp)
        · split at h
          · exact absurd h (by simp)
          · exact ih (lname ++ [c]) l cap h

theorem lreMatch_subq_lower_mem (s ln cap : String)
    (h : lreMatch s = some (ln, some cap)) : lowerStr cap ∈ subqTokens := by
  unfold lreMatch at h
  cases hg : lreGo [] s.data with
  | none => rw [hg] at h; exact Option.noConfusion h
  | some p =>
      obtain ⟨l, sq⟩ := p
      rw [hg] at h
      cases sq with
      | none => simp at h
      | some capl =>
          simp only [Option.map_some] at h
          obtain ⟨-, hcap⟩ := Prod.mk.injEq .. ▸ Option.some.injEq .. ▸ h
          obtain rfl := Option.some.injEq .. ▸ hcap
          obtain ⟨t, ht, hlow⟩ := lreGo_subq_lower_mem s.data [] l capl hg
          have : lowerStr (String.mk capl) = t := by
            unfold lowerStr
            rw [show (String.mk capl).data = capl from rfl, hlow]
          rw [this]
          exact ht

theorem afterClaim_control (env : FileEnv) (listnames : List String) (file : String) :
    (afterClaim env listnames file).control = .next := by
  simp only [afterClaim]
  repeat' split
  all_goals rfl

theorem afterClaim_claimedAs (env : FileEnv) (listnames : List String) (file : String) :
    (afterClaim env listnames file).claimedAs = some (file ++ (":1,P")) := by
  simp only [afterClaim]
  repeat' split
  all_goals rfl

theorem afterClaim_fate (env : FileEnv) (listnames : List String) (file : String) :
    (afterClaim env listnames file).fate = .removed
    ∨ (afterClaim env listnames file).fate = .quarantinedAt (file ++ (":1,X"))
    ∨ ((afterClaim env listnames file).fate = .inProgressAt (file ++ (":1,P"))
        ∧ env.xrenameOk = false) := by
  simp only [afterClaim]
  repeat' split
  all_goals simp_all

theorem processFile_control_abort_iff (env : FileEnv) (listnames : List String) (file : String) :
    (processFile env listnames file).control = .abortPass ↔ env.claim = .err := by
  rcases env with ⟨c, l, e, u, x⟩
  cases c
  · simp only [processFile]
    rw [afterClaim_control]
    simp
  · simp [processFile]
  · simp [processFile]

theorem passAborted_eq_false (listnames : List String) :
    ∀ files : List (String × FileEnv),
      (∀ p ∈ files, p.2.claim ≠ RenameResult.err) → passAborted listnames files = false := by
  intro files
  induction files with
  | nil => intro _; rfl
  | cons p rest ih =>
      intro h
      obtain ⟨file, env⟩ := p
      have hne : env.claim ≠ RenameResult.err := h (file, env) (List.mem_cons_self _ _)
      simp only [passAborted]
      cases hctrl : (processFile env listnames file).control with
      | next => exact ih fun q hq => h q (List.mem_cons_of_mem _ hq)
      | abortPass =>
          exact absurd ((processFile_control_abort_iff env listnames file).mp hctrl) hne

theorem passAborted_cons_next (listnames : List String) (file : String) (env : FileEnv)
    (rest : List (String × FileEnv))
    (h : (processFile env listnames file).control = .next) :
    passAborted listnames ((file, env) :: rest) = passAborted listnames rest := by
  simp only [passAborted, h]

example : lreMatch ("mylist-bounces@example.com") = some (("mylist"), some ("bounces")) := by
  decide

example : lreMatch ("mylist-BOUNCES@host") = some (("mylist"), some ("BOUNCES")) := by
  decide

example : lreMatch ("my-list@x") = some (("my-list"), none) := by decide

example : lreMatch ("mylist-ownerx@h") = some (("mylist-ownerx"), none) := by decide

example : lreMatch ("mylist-admin-bounces@x") = some (("mylist-admin"), some ("bounces")) := by
  decide

example : lreMatch ("foo") = none := by decide

example : lreMatch ("x+rest") = some (("x"), none) := by decide

example : parseaddr ("nosuch@x, mylist@x") = ("nosuch@x") := by decide

example : parseaddr ("My Name <a@b>") = ("a@b") := by decide

example : route ([(("delivered-to"), ("mylist-BOUNCES@host"))]) (["mylist"])
    = some (("mylist"), some ("BOUNCES")) := by decide

example : selectDest ("mylist") (some ("BOUNCES")) = none := by decide

example :
    (processFile ⟨.ok, some ([(("delivered-to"), ("mylist-bounces@host"))]), true, true, true⟩
      (["mylist"]) ("f1")).enqueued = some (.bounceQueue, baseMd ("mylist")) := by decide

theorem takeWhile_all_true {p : Char → Bool} :
    ∀ l : List Char, (∀ c ∈ l, p c = true) → l.takeWhile p = l := by
  intro l
  induction l with
  | nil => intro _; rfl
  | cons a l ih =>
      intro h
      rw [List.takeWhile_cons, if_pos (h a (List.mem_cons_self a l)),
        ih fun c hc => h c (List.mem_cons_of_mem a hc)]

theorem takeWhile_append_all {p : Char → Bool} :
    ∀ l1 l2 : List Char, (∀ c ∈ l1, p c = true) →
      (l1 ++ l2).takeWhile p = l1 ++ l2.takeWhile p := by
  intro l1
  induction l1 with
  | nil => intro l2 _; rfl
  | cons a l1 ih =>
      intro l2 h
      rw [List.cons_append, List.takeWhile_cons, if_pos (h a (List.mem_cons_self a l1)),
        ih l2 fun c hc => h c (List.mem_cons_of_mem a hc), List.cons_append]

theorem parseaddr_first_address (a b : String) (h : (',') ∉ a.data) :
    parseaddr (a ++ (", ") ++ b) = parseaddr a := by
  have hall : ∀ c ∈ a.data, (fun c => decide (c ≠ (','))) c = true := by
    intro c hc
    simp only [decide_eq_true_eq, ne_eq]
    intro hcc
    exact h (hcc ▸ hc)
  have hdata : (a ++ (", ") ++ b).data = a.data ++ ((',') :: (' ') :: b.data) := by
    rw [String.data_append, String.data_append, List.append_assoc]
    rfl
  have hfirst : (a ++ (", ") ++ b).data.takeWhile (fun c => decide (c ≠ (',')))
      = a.data.takeWhile (fun c => decide (c ≠ (','))) := by
    rw [hdata, takeWhile_append_all a.data ((',') :: (' ') :: b.data) hall,
      takeWhile_all_true a.data hall]
    rw [List.takeWhile_cons]
    simp
  unfold parseaddr
  rw [hfirst]

theorem route_single (v : String) (listnames : List String) :
    route ([(("delivered-to"), v)]) listnames = candidateOf parseaddr listnames v := by
  have h1 : collectVals ([(("delivered-to"), v)]) = [v] := rfl
  unfold route
  rw [h1, routeScan_eq_findSome, List.findSome?_cons]
  cases hc : candidateOf parseaddr listnames v with
  | none => simp
  | some r => simp

/-! Claim theorems. -/

/-- C2: the Destination Selector is a total pure function of the matched
sub-queue token (or its absence) realizing exactly the dispatch table:
bounces and admin to the bounce queue with no extra flags; confirm to the
command queue with toconfirm; join and subscribe to the command queue with
tojoin; leave and unsubscribe to the command queue with toleave; owner to
the main inbound queue with toowner, the site bounce envelope sender and
the owner pipeline; no sub-queue to the main inbound queue with tolist;
request to the command queue with torequest; and every selected path
carries the listname in the metadata. -/
theorem C2_destination_selector_table (ln : String) :
    selectDest ln (some ("bounces")) = some (.bounceQueue, baseMd ln)
    ∧ selectDest ln (some ("admin")) = some (.bounceQueue, baseMd ln)
    ∧ selectDest ln (some ("confirm")) = some (.cmdQueue, { baseMd ln with toconfirm := true })
    ∧ selectDest ln (some ("join")) = some (.cmdQueue, { baseMd ln with tojoin := true })
    ∧ selectDest ln (some ("subscribe")) = some (.cmdQueue, { baseMd ln with tojoin := true })
    ∧ selectDest ln (some ("leave")) = some (.cmdQueue, { baseMd ln with toleave := true })
    ∧ selectDest ln (some ("unsubscribe")) = some (.cmdQueue, { baseMd ln with toleave := true })
    ∧ selectDest ln (some ("owner")) = some (.inQueue, ownerMd ln)
    ∧ selectDest ln none = some (.inQueue, { baseMd ln with tolist := true })
    ∧ selectDest ln (some ("request")) = some (.cmdQueue, { baseMd ln with torequest := true })
    ∧ ∀ (sq : Option String) (p : QueueId × MsgData),
        selectDest ln sq = some p → p.2.listname = ln := by
  refine ⟨rfl, rfl, rfl, rfl, rfl, rfl, rfl, rfl, rfl, rfl, ?_⟩
  intro sq p h
  unfold selectDest at h
  repeat' split at h
  all_goals
    first
      | exact Option.noConfusion h
      | (injection h with h1; subst h1; rfl)

/-- Witness for C2: the confirm row of the table carries the listname. -/
theorem C2_witness :
    ((QueueId.cmdQueue, { baseMd ("mylist") with toconfirm := true }) :
        QueueId × MsgData).2.listname = ("mylist") :=
  (C2_destination_selector_table ("mylist")).2.2.2.2.2.2.2.2.2.2
    (some ("confirm")) (QueueId.cmdQueue, { baseMd ("mylist") with toconfirm := true }) rfl

/-- C3: the claim is a single rename to the name built by appending the
in-progress suffix; a rename failure with ENOENT is a lost race, silently
skipped while the pass continues; any other rename failure propagates and
aborts the whole pass. -/
theorem C3_claim_protocol (env : FileEnv) (listnames : List String) (file : String)
    (rest : List (String × FileEnv)) :
    (env.claim = RenameResult.enoent →
        processFile env listnames file = ⟨.lostToOther, [], .next, none, none⟩
        ∧ passAborted listnames ((file, env) :: rest) = passAborted listnames rest)
    ∧ (env.claim = RenameResult.err →
        processFile env listnames file
            = ⟨.unclaimedStay, [.couldNotRename file], .abortPass, none, none⟩
        ∧ passAborted listnames ((file, env) :: rest) = true
        ∧ oneloop (.ok ((file, env) :: rest)) listnames = .error .claimError)
    ∧ (env.claim = RenameResult.ok →
        (processFile env listnames file).claimedAs = some (file ++ (":1,P"))) := by
  refine ⟨?_, ?_, ?_⟩
  · intro h
    have hp : processFile env listnames file = ⟨.lostToOther, [], .next, none, none⟩ := by
      unfold processFile
      rw [h]
    exact ⟨hp, passAborted_cons_next listnames file env rest (by rw [hp])⟩
  · intro h
    have hp : processFile env listnames file
        = ⟨.unclaimedStay, [.couldNotRename file], .abortPass, none, none⟩ := by
      unfold processFile
      rw [h]
    have ha : passAborted listnames ((file, env) :: rest) = true := by
      simp only [passAborted, hp]
    refine ⟨hp, ha, ?_⟩
    simp only [oneloop, ha, if_pos]
  · intro h
    have hp : processFile env listnames file = afterClaim env listnames file := by
      unfold processFile
      rw [h]
    rw [hp]
    exact afterClaim_claimedAs env listnames file

/-- Witness for C3: a fatal claim rename on the first file aborts the whole
pass. -/
theorem C3_witness :
    oneloop (.ok ([(("w3"), (⟨RenameResult.err, none, true, true, true⟩ : FileEnv))]))
        ([]) = .error .claimError :=
  ((C3_claim_protocol ⟨RenameResult.err, none, true, true, true⟩ ([]) ("w3") []).2.1 rfl).2.2

/-- C4: a pass over a missing directory returns zero without raising;
whenever a pass over a listing returns a count it is the length of that one
listing, and when no file hits a fatal claim error the pass does return
that count, files lost to races or quarantined counting the same as
dispatched ones. -/
theorem C4_pass_count (listnames : List String) :
    oneloop ListDirResult.enoent listnames = .ok 0
    ∧ (∀ (files : List (String × FileEnv)) (n : Nat),
        oneloop (.ok files) listnames = .ok n → n = files.length)
    ∧ (∀ files : List (String × FileEnv),
        (∀ p ∈ files, p.2.claim ≠ RenameResult.err) →
        oneloop (.ok files) listnames = .ok files.length) := by
  refine ⟨rfl, ?_, ?_⟩
  · intro files n h
    simp only [oneloop] at h
    by_cases hab : passAborted listnames files = true
    · rw [if_pos hab] at h
      exact Except.noConfusion h
    · rw [if_neg hab] at h
      injection h with h1
      exact h1.symm
  · intro files hne
    simp only [oneloop]
    rw [passAborted_eq_false listnames files hne]
    rfl

/-- Witness for C4: a pass with one lost race, one quarantined file and one
dispatched file still reports three files. -/
theorem C4_witness :
    oneloop (.ok ([(("a"), (⟨RenameResult.enoent, none, true, true, true⟩ : FileEnv)),
        (("b"), (⟨RenameResult.ok, none, true, true, true⟩ : FileEnv)),
        (("c"), (⟨RenameResult.ok, some msgTolist, true, true, true⟩ : FileEnv))]))
      (["mylist"]) = .ok 3 :=
  (C4_pass_count (["mylist"])).2.2
    ([(("a"), (⟨RenameResult.enoent, none, true, true, true⟩ : FileEnv)),
      (("b"), (⟨RenameResult.ok, none, true, true, true⟩ : FileEnv)),
      (("c"), (⟨RenameResult.ok, some msgTolist, true, true, true⟩ : FileEnv))])
    (by decide)

/-- C10: construction creates the new and cur maildir directories when they
do not exist, so after a successful initialization both exist (hence the
pass-level directory-absent branch needs a later removal to be reached),
and an initialization failure is logged and re-raised. -/
theorem C10_init_dirs (env : InitEnv) :
    ((initRunner env).1 = none ∨ (initRunner env).1 = some ⟨true, true⟩)
    ∧ ((initRunner env).1 = none → LogEvent.initFailed ∈ (initRunner env).2)
    ∧ ((initRunner env).1 ≠ none →
        initRunner env = (some ⟨true, true⟩, [.initStart, .initComplete]))
    ∧ (env.runnerInitOk = true → env.newExists = true → env.curExists = true →
        initRunner env = (some ⟨true, true⟩, [.initStart, .initComplete])) := by
  obtain ⟨r, ne, ce, mn, mc⟩ := env
  cases r <;> cases ne <;> cases ce <;> cases mn <;> cases mc <;> exact (by decide)

/-- Witness for C10: with both directories initially missing and both
creations succeeding, initialization completes with both existing. -/
theorem C10_witness :
    initRunner ⟨true, false, false, true, true⟩
      = (some ⟨true, true⟩, [.initStart, .initComplete]) :=
  (C10_init_dirs ⟨true, false, false, true, true⟩).2.2.1 (by decide)

/-- C1: the Recipient Router collects the values of Delivered-To,
Envelope-To and Apparently-To in that fixed order, skips empty extracted
addresses, and returns the first candidate whose pattern match yields a
listname in the valid set (the find-first form over the collected values);
when no candidate yields both, the file is quarantined under the name built
with the X suffix and the pass continues with the next file. -/
theorem C1_router_first_valid_match (msg : Msg) (listnames : List String) :
    route msg listnames = (collectVals msg).findSome? (candidateOf parseaddr listnames)
    ∧ ∀ (env : FileEnv) (m : Msg) (file : String) (rest : List (String × FileEnv)),
        env.claim = RenameResult.ok → env.load = some m → env.xrenameOk = true →
        route m listnames = none →
        (processFile env listnames file).fate = FileFate.quarantinedAt (file ++ (":1,X"))
        ∧ (processFile env listnames file).logs = [.notForAnyList (file ++ (":1,X"))]
        ∧ (processFile env listnames file).control = Control.next
        ∧ passAborted listnames ((file, env) :: rest) = passAborted listnames rest := by
  constructor
  · exact routeScan_eq_findSome parseaddr listnames (collectVals msg)
  · intro env m file rest hc hl hx hr
    have hres : processFile env listnames file
        = ⟨.quarantinedAt (file ++ (":1,X")), [.notForAnyList (file ++ (":1,X"))], .next, none,
            some (file ++ (":1,P"))⟩ := by
      simp [processFile, afterClaim, hc, hl, hr, hx]
    exact ⟨by rw [hres], by rw [hres], by rw [hres],
      passAborted_cons_next listnames file env rest (by rw [hres])⟩

/-- Witness for C1: a message for an unregistered address is quarantined
under the X-suffixed name. -/
theorem C1_witness :
    (processFile ⟨RenameResult.ok, some msgNoRoute, true, true, true⟩ (["mylist"]) ("w1")).fate
      = FileFate.quarantinedAt (("w1") ++ (":1,X")) :=
  ((C1_router_first_valid_match msgNoRoute (["mylist"])).2
    ⟨RenameResult.ok, some msgNoRoute, true, true, true⟩ msgNoRoute ("w1") []
    rfl rfl rfl (by decide)).1

/-- Counterexample to C5: with valid list mylist, the all-lowercase address
is dispatched to the bounce queue, but the same address with an upper-case
sub-queue token is quarantined through the unknown-sub-queue branch, and
the address with an upper-case listname is quarantined as unroutable; the
case variants are not routed to the same destination with the same
metadata. -/
theorem C5_counterexample :
    (processFile ⟨RenameResult.ok, some ([(("delivered-to"), ("mylist-bounces@host"))]),
        true, true, true⟩ (["mylist"]) ("c5")).enqueued
      = some (QueueId.bounceQueue, baseMd ("mylist"))
    ∧ (processFile ⟨RenameResult.ok, some ([(("delivered-to"), ("mylist-bounces@host"))]),
        true, true, true⟩ (["mylist"]) ("c5")).fate = FileFate.removed
    ∧ (processFile ⟨RenameResult.ok, some ([(("delivered-to"), ("mylist-BOUNCES@host"))]),
        true, true, true⟩ (["mylist"]) ("c5")).enqueued = none
    ∧ (processFile ⟨RenameResult.ok, some ([(("delivered-to"), ("mylist-BOUNCES@host"))]),
        true, true, true⟩ (["mylist"]) ("c5")).fate
      = FileFate.quarantinedAt (("c5") ++ (":1,X"))
    ∧ (processFile ⟨RenameResult.ok, some ([(("delivered-to"), ("MYLIST-bounces@host"))]),
        true, true, true⟩ (["mylist"]) ("c5")).enqueued = none
    ∧ (processFile ⟨RenameResult.ok, some ([(("delivered-to"), ("MYLIST-bounces@host"))]),
        true, true, true⟩ (["mylist"]) ("c5")).fate
      = FileFate.quarantinedAt (("c5") ++ (":1,X")) := by
  decide

/-- C5 amended: only the pattern-matching stage is case-insensitive.  The
list-name membership test is exact string equality, and the dispatch chain
recognizes only the exact lower-case tokens, so an address whose listname
or sub-queue token differs in case from the registered lower-case form is
not routed like the lower-case form: a case-variant listname never routes,
and a case-variant token falls into the unknown-sub-queue branch. -/
theorem C5_amended_case_sensitivity (msg : Msg) (listnames : List String) (ln : String)
    (sq : Option String) (s : String) :
    (route msg listnames = some (ln, sq) → ln ∈ listnames)
    ∧ (selectDest ln (some s) = none ↔ s ∉ subqTokens)
    ∧ lreMatch ("mylist-BOUNCES@host") = some (("mylist"), some ("BOUNCES"))
    ∧ lreMatch ("MYLIST-bounces@host") = some (("MYLIST"), some ("bounces")) :=
  ⟨fun h => route_mem msg listnames ln sq h, selectDest_none_iff ln s,
    by decide, by decide⟩

/-- Witness for C5 amended: the routed listname is a member of the valid
set, and the upper-case token is dispatched to no queue. -/
theorem C5_witness :
    (("mylist") : String) ∈ (["mylist"] : List String)
    ∧ selectDest ("mylist") (some ("BOUNCES")) = none :=
  ⟨(C5_amended_case_sensitivity ([(("delivered-to"), ("mylist-bounces@host"))]) (["mylist"])
      ("mylist") (some ("bounces")) ("BOUNCES")).1 (by decide),
   (C5_amended_case_sensitivity ([(("delivered-to"), ("mylist-bounces@host"))]) (["mylist"])
      ("mylist") (some ("bounces")) ("BOUNCES")).2.1.mpr (by decide)⟩

/-- Counterexample to C6: when the quarantine rename itself fails, the file
is left in progress but the log trace is identical to the one of a
successful quarantine: the only entry is the original processing error, and
no entry reports the failed quarantine rename, which is swallowed. -/
theorem C6_counterexample :
    (processFile ⟨RenameResult.ok, none, true, true, false⟩ ([]) ("c6")).fate
      = FileFate.inProgressAt (("c6") ++ (":1,P"))
    ∧ (processFile ⟨RenameResult.ok, none, true, true, false⟩ ([]) ("c6")).logs
      = [LogEvent.errorProcessing ("c6")]
    ∧ (processFile ⟨RenameResult.ok, none, true, true, false⟩ ([]) ("c6")).logs
      = (processFile ⟨RenameResult.ok, none, true, true, true⟩ ([]) ("c6")).logs := by
  decide

/-- C6 amended: on any failure after a successful claim (load failure,
enqueue failure, or an unexpected exception such as a failed unlink), the
in-progress file is quarantined by a best-effort rename to the X-suffixed
name and the pass continues; if the quarantine rename fails it is silently
swallowed — only the original processing error is logged — and the file is
left in the in-progress state. -/
theorem C6_amended_best_effort (env : FileEnv) (listnames : List String) (file : String)
    (rest : List (String × FileEnv))
    (hclaim : env.claim = RenameResult.ok)
    (hfail : env.load = none
      ∨ ∃ m l sq q md, env.load = some m ∧ route m listnames = some (l, sq)
          ∧ selectDest l sq = some (q, md)
          ∧ (env.enqueueOk = false ∨ env.unlinkOk = false)) :
    (env.xrenameOk = true →
        (processFile env listnames file).fate = FileFate.quarantinedAt (file ++ (":1,X")))
    ∧ (env.xrenameOk = false →
        (processFile env listnames file).fate = FileFate.inProgressAt (file ++ (":1,P"))
        ∧ (processFile env listnames file).logs = [LogEvent.errorProcessing file])
    ∧ (processFile env listnames file).control = Control.next
    ∧ passAborted listnames ((file, env) :: rest) = passAborted listnames rest := by
  have hctrl : (processFile env listnames file).control = Control.next := by
    have hp : processFile env listnames file = afterClaim env listnames file := by
      unfold processFile
      rw [hclaim]
    rw [hp]
    exact afterClaim_control env listnames file
  refine ⟨?_, ?_, hctrl, passAborted_cons_next listnames file env rest hctrl⟩
  · intro hx
    rcases hfail with hload | ⟨m, l, sq, q, md, hm, hr, hs, hfe⟩
    · simp [processFile, afterClaim, hclaim, hload, hx]
    · rcases hfe with hf | hf
      · simp [processFile, afterClaim, hclaim, hm, hr, hs, hf, hx]
      · cases he : env.enqueueOk
        · simp [processFile, afterClaim, hclaim, hm, hr, hs, he, hx]
        · simp [processFile, afterClaim, hclaim, hm, hr, hs, he, hf, hx]
  · intro hx
    rcases hfail with hload | ⟨m, l, sq, q, md, hm, hr, hs, hfe⟩
    · constructor <;> simp [processFile, afterClaim, hclaim, hload, hx]
    · rcases hfe with hf | hf
      · constructor <;> simp [processFile, afterClaim, hclaim, hm, hr, hs, hf, hx]
      · cases he : env.enqueueOk
        · constructor <;> simp [processFile, afterClaim, hclaim, hm, hr, hs, he, hx]
        · constructor <;> simp [processFile, afterClaim, hclaim, hm, hr, hs, he, hf, hx]

/-- Witness for C6 amended: an enqueue failure followed by a failed
quarantine rename leaves the file in progress with only the processing
error logged. -/
theorem C6_witness :
    (processFile ⟨RenameResult.ok, some msgTolist, false, true, false⟩ (["mylist"]) ("w6")).fate
      = FileFate.inProgressAt (("w6") ++ (":1,P"))
    ∧ (processFile ⟨RenameResult.ok, some msgTolist, false, true, false⟩ (["mylist"])
        ("w6")).logs = [LogEvent.errorProcessing ("w6")] :=
  ((C6_amended_best_effort ⟨RenameResult.ok, some msgTolist, false, true, false⟩ (["mylist"])
      ("w6") [] rfl
      (Or.inr ⟨msgTolist, ("mylist"), none, QueueId.inQueue,
        { baseMd ("mylist") with tolist := true }, rfl, by decide, by decide,
        Or.inl rfl⟩)).2.1 rfl)

/-- Counterexample to C7: the pattern accepts a case-variant token, the
dispatch chain does not handle it, and the defensive unknown-sub-queue
quarantine branch is taken (with its log entry), so the branch is
reachable. -/
theorem C7_counterexample :
    lreMatch ("alist-Bounces@example.net") = some (("alist"), some ("Bounces"))
    ∧ selectDest ("alist") (some ("Bounces")) = none
    ∧ (processFile ⟨RenameResult.ok, some ([(("delivered-to"), ("alist-Bounces@example.net"))]),
        true, true, true⟩ (["alist"]) ("c7")).fate
      = FileFate.quarantinedAt (("c7") ++ (":1,X"))
    ∧ (processFile ⟨RenameResult.ok, some ([(("delivered-to"), ("alist-Bounces@example.net"))]),
        true, true, true⟩ (["alist"]) ("c7")).logs = [LogEvent.unknownSubqueue ("Bounces")] := by
  decide

/-- C7 amended: every sub-queue token produced by the pattern equals one of
the nine enumerated tokens up to case; the unknown-sub-queue branch is
unreachable exactly when the captured token is spelled in the enumerated
lower-case form, and is taken precisely by case-variant spellings. -/
theorem C7_amended_reachability (s ln ln2 cap : String)
    (h : lreMatch s = some (ln, some cap)) :
    lowerStr cap ∈ subqTokens
    ∧ (cap ∈ subqTokens → selectDest ln2 (some cap) ≠ none)
    ∧ (cap ∉ subqTokens → selectDest ln2 (some cap) = none) :=
  ⟨lreMatch_subq_lower_mem s ln cap h,
   fun hm => selectDest_some_of_token ln2 cap hm,
   fun hm => selectDest_none_of_not_token ln2 cap hm⟩

/-- Witness for C7 amended: the owner token captured from a concrete
address is an enumerated token and is dispatched. -/
theorem C7_witness :
    lowerStr ("owner") ∈ subqTokens
    ∧ selectDest ("zlist") (some ("owner")) ≠ none :=
  ⟨(C7_amended_reachability ("b-owner@x") ("b") ("zlist") ("owner") (by decide)).1,
   (C7_amended_reachability ("b-owner@x") ("b") ("zlist") ("owner") (by decide)).2.1
      (by decide)⟩

/-- Counterexample to C8: when the quarantine rename fails after a load
failure, the file ends the pass in the in-progress state, which is none of
the three states removed, quarantined, or still unclaimed by a lost
race. -/
theorem C8_counterexample :
    inThreeClaimedStates
        ((processFile ⟨RenameResult.ok, none, true, true, false⟩ ([]) ("c8")).fate) = false
    ∧ (processFile ⟨RenameResult.ok, none, true, true, false⟩ ([]) ("c8")).fate
      = FileFate.inProgressAt (("c8") ++ (":1,P")) := by
  decide

/-- C8 amended: after processing, a file is in exactly one of five states:
removed, quarantined under the X-suffixed name, lost to another worker,
left in progress under the P-suffixed name (only when the quarantine
rename failed), or still unclaimed (only when the claim rename failed
fatally, aborting the pass); the in-progress rename is the only entry
point out of the unclaimed state. -/
theorem C8_amended_file_states (env : FileEnv) (listnames : List String) (file : String) :
    ((processFile env listnames file).fate = FileFate.removed
      ∨ (processFile env listnames file).fate = FileFate.lostToOther
      ∨ (processFile env listnames file).fate = FileFate.unclaimedStay
      ∨ (processFile env listnames file).fate = FileFate.quarantinedAt (file ++ (":1,X"))
      ∨ (processFile env listnames file).fate = FileFate.inProgressAt (file ++ (":1,P")))
    ∧ ((processFile env listnames file).fate = FileFate.inProgressAt (file ++ (":1,P")) →
        env.xrenameOk = false)
    ∧ ((processFile env listnames file).fate = FileFate.lostToOther →
        env.claim = RenameResult.enoent)
    ∧ ((processFile env listnames file).fate = FileFate.unclaimedStay →
        env.claim = RenameResult.err
        ∧ (processFile env listnames file).control = Control.abortPass) := by
  cases hc : env.claim with
  | ok =>
      have hpf : processFile env listnames file = afterClaim env listnames file := by
        unfold processFile
        rw [hc]
      rcases afterClaim_fate env listnames file with h1 | h1 | ⟨h1, h2⟩
      · rw [hpf, h1]
        refine ⟨Or.inl rfl, ?_, ?_, ?_⟩ <;> intro hx <;> exact FileFate.noConfusion hx
      · rw [hpf, h1]
        refine ⟨Or.inr (Or.inr (Or.inr (Or.inl rfl))), ?_, ?_, ?_⟩ <;> intro hx <;>
          exact FileFate.noConfusion hx
      · rw [hpf, h1]
        refine ⟨Or.inr (Or.inr (Or.inr (Or.inr rfl))), fun _ => h2, ?_, ?_⟩ <;> intro hx <;>
          exact FileFate.noConfusion hx
  | enoent =>
      have hpf : processFile env listnames file = ⟨.lostToOther, [], .next, none, none⟩ := by
        unfold processFile
        rw [hc]
      rw [hpf]
      exact ⟨Or.inr (Or.inl rfl), fun hx => FileFate.noConfusion hx, fun _ => rfl,
        fun hx => FileFate.noConfusion hx⟩
  | err =>
      have hpf : processFile env listnames file
          = ⟨.unclaimedStay, [.couldNotRename file], .abortPass, none, none⟩ := by
        unfold processFile
        rw [hc]
      rw [hpf]
      exact ⟨Or.inr (Or.inr (Or.inl rfl)), fun hx => FileFate.noConfusion hx,
        fun hx => FileFate.noConfusion hx, fun _ => ⟨rfl, rfl⟩⟩

/-- Witness for C8 amended: the in-progress end state certifies that the
quarantine rename failed. -/
theorem C8_witness :
    (⟨RenameResult.ok, none, true, true, false⟩ : FileEnv).xrenameOk = false :=
  (C8_amended_file_states ⟨RenameResult.ok, none, true, true, false⟩ ([]) ("w8")).2.1
    (by decide)

/-- Counterexample to C9: a header value holding two addresses, of which
only the second matches a valid list, is not routed: the router consults
only the first extracted address, although the second one pattern-matches
and names a member of the valid set. -/
theorem C9_counterexample :
    route ([(("delivered-to"), ("nosuch@x, mylist@x"))]) (["mylist"]) = none
    ∧ lreMatch ("mylist@x") = some (("mylist"), none)
    ∧ (("mylist") : String) ∈ (["mylist"] : List String)
    ∧ parseaddr ("nosuch@x, mylist@x") = ("nosuch@x") := by
  decide

/-- C9 amended: per header value only the first contained address is
extracted and tested; everything after the first comma of a value never
influences the routing result. -/
theorem C9_amended_first_only (a b : String) (listnames : List String)
    (h : (',') ∉ a.data) :
    route ([(("delivered-to"), a ++ (", ") ++ b)]) listnames
      = route ([(("delivered-to"), a)]) listnames := by
  rw [route_single, route_single]
  unfold candidateOf
  rw [parseaddr_first_address a b h]

/-- Witness for C9 amended: appending a routable second address changes
nothing. -/
theorem C9_witness :
    route ([(("delivered-to"), ("nosuch@x") ++ (", ") ++ ("mylist@x"))]) (["mylist"])
      = route ([(("delivered-to"), ("nosuch@x"))]) (["mylist"]) :=
  C9_amended_first_only ("nosuch@x") ("mylist@x") (["mylist"]) (by decide)

end Maildir
